import Mathlib

/-!
Verification of the store-locator / comparator behavior layer.

This file shallowly embeds the functions of `src/utils/comparateur/comparateur.ts`,
`src/utils/map/map.ts` and `src/utils/map/concessionCta.ts` that the frozen claims
are about, and proves or refutes each claim.

Modelling conventions:
- JavaScript numbers are idealized as rationals (`ℚ`); every numeric comparison
  relevant to a claim involves quantities whose gaps are far larger than double
  rounding error, so the idealization is faithful for the proved statements.
- `null` / `undefined` / absent optional fields become `Option`.
- JavaScript strings are Lean `String`s; `String.length` counts code points
  (JS counts UTF-16 units; all strings the claims quantify over are ASCII-level).
- `localStorage` is a single `Option String` cell (only the key
  `concessionIntent` is relevant).
-/

-- ============================================================================
-- COMPARATOR (comparateur.ts)
-- ============================================================================

/-- Vehicle energy/category type, from the `VehicleType` union in comparateur.ts. -/
inductive VehicleType where
  | utilitaireThermique
  | utilitaireElectrique
  | pickupThermique
  | pickupElectrique
deriving DecidableEq

/-- Vehicle record, from the `Vehicle` interface in comparateur.ts.
`charge` is in kg; `volume` (m³) and `longueur` (m) are optional fields. -/
structure Vehicle where
  id : String
  name : String
  type : VehicleType
  charge : ℚ
  volume : Option ℚ
  longueur : Option ℚ
deriving DecidableEq

/-- User search criteria, from the `SearchCriteria` interface in comparateur.ts. -/
structure SearchCriteria where
  type : Option VehicleType
  charge : Option ℚ
  volume : Option ℚ
  longueur : Option ℚ

/-- Catalog entry `deliver7` of the `VEHICLES` table. -/
def vDeliver7 : Vehicle :=
  { id := "deliver7", name := "Deliver 7", type := .utilitaireThermique,
    charge := 1229, volume := some 7.2, longueur := some 2.8 }

/-- Catalog entry `deliver9` of the `VEHICLES` table. -/
def vDeliver9 : Vehicle :=
  { id := "deliver9", name := "Deliver 9", type := .utilitaireThermique,
    charge := 1450, volume := some 11.5, longueur := some 3.413 }

/-- Catalog entry `t60max` of the `VEHICLES` table. -/
def vT60max : Vehicle :=
  { id := "t60max", name := "T60 Max", type := .pickupThermique,
    charge := 1000, volume := some 0, longueur := some 0 }

/-- Catalog entry `edeliver3` of the `VEHICLES` table. -/
def vEdeliver3 : Vehicle :=
  { id := "edeliver3", name := "eDeliver 3", type := .utilitaireElectrique,
    charge := 1080, volume := some 6.3, longueur := some 2.77 }

/-- Catalog entry `edeliver5` of the `VEHICLES` table. -/
def vEdeliver5 : Vehicle :=
  { id := "edeliver5", name := "eDeliver 5", type := .utilitaireElectrique,
    charge := 1265, volume := some 8.7, longueur := some 0 }

/-- Catalog entry `edeliver7` of the `VEHICLES` table. -/
def vEdeliver7 : Vehicle :=
  { id := "edeliver7", name := "eDeliver 7", type := .utilitaireElectrique,
    charge := 1200, volume := some 8.7, longueur := some 0 }

/-- Catalog entry `edeliver9` of the `VEHICLES` table. -/
def vEdeliver9 : Vehicle :=
  { id := "edeliver9", name := "eDeliver 9", type := .utilitaireElectrique,
    charge := 1040, volume := some 12.33, longueur := some 0 }

/-- Catalog entry `eterron9` of the `VEHICLES` table. -/
def vEterron9 : Vehicle :=
  { id := "eterron9", name := "eTerron 9", type := .pickupElectrique,
    charge := 650, volume := some 0, longueur := some 0 }

/-- Catalog entry `t90ev` of the `VEHICLES` table. -/
def vT90ev : Vehicle :=
  { id := "t90ev", name := "T90 EV", type := .pickupElectrique,
    charge := 1000, volume := some 0, longueur := some 0 }

/-- Static vehicle catalog, from the `VEHICLES` constant in comparateur.ts
(nine entries, in source order). -/
def VEHICLES : List Vehicle :=
  [vDeliver7, vDeliver9, vT60max, vEdeliver3, vEdeliver5, vEdeliver7, vEdeliver9,
   vEterron9, vT90ev]

/-- Charge contribution of `calculateScore`: the block guarded by
`criteria.charge !== null && vehicle.charge > 0` adds `|diff| / 100` to the
running total and `1` to the criteria count. -/
def chargeStep (vehicle : Vehicle) (criteria : SearchCriteria) : ℚ × ℕ :=
  match criteria.charge with
  | some q => if 0 < vehicle.charge then (|vehicle.charge - q| / 100, 1) else (0, 0)
  | none => (0, 0)

/-- Volume contribution of `calculateScore`: the block guarded by
`criteria.volume !== null && vehicle.volume && vehicle.volume > 0` adds
`|diff| * 10` and counts `1`. (A missing or non-positive vehicle volume is
falsy/rejected, hence contributes nothing.) -/
def volumeStep (vehicle : Vehicle) (criteria : SearchCriteria) : ℚ × ℕ :=
  match criteria.volume, vehicle.volume with
  | some q, some w => if 0 < w then (|w - q| * 10, 1) else (0, 0)
  | _, _ => (0, 0)

/-- Length contribution of `calculateScore`: the block guarded by
`criteria.longueur !== null && vehicle.longueur && vehicle.longueur > 0` adds
`|diff| * 100` and counts `1`. -/
def longueurStep (vehicle : Vehicle) (criteria : SearchCriteria) : ℚ × ℕ :=
  match criteria.longueur, vehicle.longueur with
  | some q, some w => if 0 < w then (|w - q| * 100, 1) else (0, 0)
  | _, _ => (0, 0)

/-- Embedding of `calculateScore` (comparateur.ts lines 133-168): `null` when the
criteria type is unset or differs from the vehicle type, or when no numeric
criterion was evaluated; otherwise the mean of the evaluated contributions. -/
def calculateScore (vehicle : Vehicle) (criteria : SearchCriteria) : Option ℚ :=
  match criteria.type with
  | none => none
  | some t =>
    if vehicle.type ≠ t then none
    else
      let s1 := chargeStep vehicle criteria
      let s2 := volumeStep vehicle criteria
      let s3 := longueurStep vehicle criteria
      let totalScore := s1.1 + s2.1 + s3.1
      let criteriaCount := s1.2 + s2.2 + s3.2
      if criteriaCount = 0 then none
      else some (totalScore / criteriaCount)

/-- Accumulator loop of `findBestMatch` (comparateur.ts lines 182-191): walks the
catalog keeping the strictly-lowest non-null score seen so far (ties keep the
earlier vehicle). -/
def findBestLoop (criteria : SearchCriteria) :
    List Vehicle → Option (Vehicle × ℚ) → Option (Vehicle × ℚ)
  | [], acc => acc
  | v :: rest, acc =>
    match calculateScore v criteria with
    | none => findBestLoop criteria rest acc
    | some s =>
      match acc with
      | none => findBestLoop criteria rest (some (v, s))
      | some (bv, bs) =>
        if s < bs then findBestLoop criteria rest (some (v, s))
        else findBestLoop criteria rest (some (bv, bs))

/-- Embedding of `findBestMatch` (comparateur.ts lines 175-194). -/
def findBestMatch (criteria : SearchCriteria) : Option Vehicle :=
  match criteria.type with
  | none => none
  | some _ => (findBestLoop criteria VEHICLES none).map Prod.fst

/-- Criteria of claim C1: category `utilitaire thermique`, payload 1300 kg,
volume 9 m³, no length. -/
def critUtilThermique : SearchCriteria :=
  { type := some .utilitaireThermique, charge := some 1300, volume := some 9,
    longueur := none }

/-- Criteria of claim C6: category `pickup électrique`, payload 650 kg,
no volume, no length. -/
def critPickupElec : SearchCriteria :=
  { type := some .pickupElectrique, charge := some 650, volume := none,
    longueur := none }

/-- Spec-side payload contribution: evaluated only when present in the criteria
and positive in the vehicle, weighted by the payload difference divided by
100. -/
def chargeContribution (vehicle : Vehicle) (criteria : SearchCriteria) : Option ℚ :=
  match criteria.charge with
  | some q => if 0 < vehicle.charge then some (|vehicle.charge - q| / 100) else none
  | none => none

/-- Spec-side volume contribution: evaluated only when present in the criteria
and positive in the vehicle, weighted by the volume difference times 10. -/
def volumeContribution (vehicle : Vehicle) (criteria : SearchCriteria) : Option ℚ :=
  match criteria.volume, vehicle.volume with
  | some q, some w => if 0 < w then some (|w - q| * 10) else none
  | _, _ => none

/-- Spec-side length contribution: evaluated only when present in the criteria
and positive in the vehicle, weighted by the length difference times 100. -/
def longueurContribution (vehicle : Vehicle) (criteria : SearchCriteria) : Option ℚ :=
  match criteria.longueur, vehicle.longueur with
  | some q, some w => if 0 < w then some (|w - q| * 100) else none
  | _, _ => none

/-- Spec-side list of evaluated per-criterion contributions (the spec's worded
model of §4.7). -/
def specContributions (vehicle : Vehicle) (criteria : SearchCriteria) : List ℚ :=
  List.filterMap id
    [chargeContribution vehicle criteria, volumeContribution vehicle criteria,
     longueurContribution vehicle criteria]

/-- Spec-side score (`score(vehicle, criteria)` as worded in §4.7 of the spec):
none unless the category matches and at least one criterion was evaluated,
otherwise the mean of the contributions. Stated independently of
`calculateScore` so their equality is a genuine refinement check. -/
def specScore (vehicle : Vehicle) (criteria : SearchCriteria) : Option ℚ :=
  if criteria.type = some vehicle.type then
    (if specContributions vehicle criteria = [] then none
     else some ((specContributions vehicle criteria).sum /
                (specContributions vehicle criteria).length))
  else none

-- ============================================================================
-- DISTANCE EXTRACTION AND CONCESSION SORTING (map.ts lines 721-824)
-- ============================================================================

/-- JavaScript regex `\s` / `String.prototype.trim` whitespace class
(space, tab, line terminators, and the Unicode space separators). -/
def isJsWhitespace (c : Char) : Bool :=
  c = ' ' ∨ c = '\t' ∨ c = '\n' ∨ c = '\r' ∨ c = '\x0b' ∨ c = '\x0c' ∨
  c = '\xa0' ∨ c = ' ' ∨ (' ' ≤ c ∧ c ≤ ' ') ∨ c = ' ' ∨
  c = ' ' ∨ c = ' ' ∨ c = ' ' ∨ c = '　' ∨ c = '﻿'

/-- JavaScript `String.prototype.trim` on the character list: trailing
whitespace removed, then leading whitespace removed. -/
def jsTrimList (cs : List Char) : List Char :=
  ((cs.reverse.dropWhile isJsWhitespace).reverse).dropWhile isJsWhitespace

/-- JavaScript `String.prototype.trim`. -/
def jsTrim (s : String) : String :=
  String.mk (jsTrimList s.data)

/-- Numeric value of a digit run (most significant first). -/
def digitsToNat (ds : List Char) : ℕ :=
  ds.foldl (fun acc c => acc * 10 + (c.toNat - '0'.toNat)) 0

/-- Attempt of the regex `(\d+(?:\.\d+)?)\s*km` (case-insensitive) anchored at
the head of the character list, returning the `parseFloat` of the captured
group. Greedy matching needs no backtracking for this pattern: shortening the
digit, fraction or whitespace runs always leaves a character that cannot start
the next sub-pattern. -/
def distanceMatchAt (cs : List Char) : Option ℚ :=
  let p := cs.span (·.isDigit)
  if p.1 = [] then none
  else
    let q : List Char × List Char :=
      match p.2 with
      | '.' :: t =>
        let f := t.span (·.isDigit)
        if f.1 = [] then ([], p.2) else (f.1, f.2)
      | _ => ([], p.2)
    let rest := q.2.dropWhile isJsWhitespace
    match rest with
    | k :: m :: _ =>
      if (k = 'k' ∨ k = 'K') ∧ (m = 'm' ∨ m = 'M') then
        some ((digitsToNat p.1 : ℚ) + (digitsToNat q.1 : ℚ) / (10 : ℚ) ^ q.1.length)
      else none
    | _ => none

/-- Leftmost match of `(\d+(?:\.\d+)?)\s*km` over the whole character list
(the regex engine tries every start index, left to right). -/
def distanceMatchScan : List Char → Option ℚ
  | [] => none
  | c :: rest =>
    match distanceMatchAt (c :: rest) with
    | some q => some q
    | none => distanceMatchScan rest

/-- Embedding of `extractDistanceValue` (map.ts lines 721-739). The element's
text content is an `Option String` (`none` for a missing element); the result
`none` stands for the source's `Infinity` ("unknown" distance): a missing or
empty text, an in-progress `calcul` text, and any unparsed text all yield
`Infinity` in the source. -/
def extractDistanceValue (textContent : Option String) : Option ℚ :=
  match textContent with
  | none => none
  | some tc =>
    if tc = "" then none
    else
      match distanceMatchScan (jsTrimList tc.data) with
      | some q => some q
      | none => none

/-- Facility card in the concession list: an identity tag for the DOM element
plus the text content of its distance element. -/
structure Card where
  tag : ℕ
  distanceText : Option String
deriving DecidableEq

/-- Distance key of a card, as computed in `sortConcessionsByDistanceImmediate`
(map.ts line 797). -/
def cardDistance (card : Card) : Option ℚ :=
  extractDistanceValue card.distanceText

/-- Boolean "not after" relation induced by the comparator of map.ts lines
806-811 (`comparator(a, b) ≤ 0`): two `Infinity` distances tie, an `Infinity`
distance goes after every numeric one, numeric distances compare by value. -/
def distanceLe (a b : Option ℚ) : Bool :=
  match a, b with
  | none, none => true
  | none, some _ => false
  | some _, none => true
  | some x, some y => decide (x ≤ y)

/-- Card comparison used by the sort. -/
def cardLe (a b : Card) : Bool :=
  distanceLe (cardDistance a) (cardDistance b)

/-- Embedding of `sortConcessionsByDistanceImmediate` (map.ts lines 764-824):
the cards are sorted by `Array.prototype.sort`, which is a stable sort
consistent with the comparator; embedded as a stable merge sort under the
induced total preorder `cardLe`. -/
def sortConcessionsByDistanceImmediate (cards : List Card) : List Card :=
  cards.mergeSort cardLe

-- ============================================================================
-- ADDRESS SUGGESTIONS (map.ts lines 510-551, concessionCta.ts lines 113-143)
-- ============================================================================

/-- Test of the regex `^\d{2,5}$` from `getAddressSuggestions`: the whole string
is 2 to 5 ASCII digits. -/
def isPostalCodeQuery (s : String) : Bool :=
  2 ≤ s.length ∧ s.length ≤ 5 ∧ s.data.all (·.isDigit)

/-- Category set requested for postal-code-shaped queries
(map.ts line 523, concessionCta.ts line 119). -/
def postalCodeTypes : String := "postcode,place,locality,address"

/-- Default category set requested for other queries
(map.ts line 520, concessionCta.ts line 118). -/
def generalSearchTypes : String := "place,locality,neighborhood,address"

/-- Request decision of `getAddressSuggestions` (map.ts lines 510-526): `none`
when the guard `!cleanQuery || cleanQuery.length < 2` returns the empty list
without issuing any request, otherwise the `types` category set put in the
request URL. -/
def getAddressSuggestionsTypes (query : String) : Option String :=
  let cleanQuery := jsTrim query
  if cleanQuery = "" ∨ cleanQuery.length < 2 then none
  else if isPostalCodeQuery cleanQuery then some postalCodeTypes
  else some generalSearchTypes

/-- Request decision of the `getAddressSuggestions` copy in concessionCta.ts
(lines 113-123); the guard and classification are textually the same. -/
def ctaGetAddressSuggestionsTypes (query : String) : Option String :=
  let cleanQuery := jsTrim query
  if cleanQuery = "" ∨ cleanQuery.length < 2 then none
  else if isPostalCodeQuery cleanQuery then some postalCodeTypes
  else some generalSearchTypes

-- ============================================================================
-- PERSISTED LOCATE INTENT (concessionCta.ts, map.ts lines 1328-1368)
-- ============================================================================

/-- Pending locate intent, the tagged union persisted under the
`concessionIntent` storage key. -/
inductive LocateIntent where
  | address (addr : String)
  | geolocate
deriving DecidableEq

/-- Hexadecimal value of one character of a `\uXXXX` escape. -/
def hexDigitVal (c : Char) : Option ℕ :=
  if '0' ≤ c ∧ c ≤ '9' then some (c.toNat - '0'.toNat)
  else if 'a' ≤ c ∧ c ≤ 'f' then some (c.toNat - 'a'.toNat + 10)
  else if 'A' ≤ c ∧ c ≤ 'F' then some (c.toNat - 'A'.toNat + 10)
  else none

/-- Four lowercase hex digits, as `JSON.stringify` emits in `\u00XX` escapes. -/
def hex4 (n : ℕ) : String :=
  String.mk (List.map (fun k => (Nat.toDigits 16 ((n / 16 ^ k) % 16)).headD '0')
    [3, 2, 1, 0])

/-- Escaping of one character inside a JSON string literal, after
`JSON.stringify`: quote and backslash escaped, control characters use the
short escapes or `\u00XX`. -/
def jsonQuoteChar (c : Char) : String :=
  if c = '"' then "\\\""
  else if c = '\\' then "\\\\"
  else if c = '\n' then "\\n"
  else if c = '\r' then "\\r"
  else if c = '\t' then "\\t"
  else if c = '\x08' then "\\b"
  else if c = '\x0c' then "\\f"
  else if c.toNat < 32 then "\\u" ++ hex4 c.toNat
  else String.singleton c

/-- JSON string literal for `s`, as `JSON.stringify` produces. -/
def jsonQuote (s : String) : String :=
  "\"" ++ String.join (s.data.map jsonQuoteChar) ++ "\""

/-- Serialization of a locate intent, exactly the two `JSON.stringify` shapes
written by concessionCta.ts: an object with key `type` and, for addresses, key
`address`, in insertion order with no spacing. -/
def stringifyIntent : LocateIntent → String
  | .address a => "\x7b\"type\":\"address\",\"address\":" ++ jsonQuote a ++ "\x7d"
  | .geolocate => "\x7b\"type\":\"geolocate\"\x7d"

/-- Opening of the serialized address-intent object, up to the address string
literal. -/
def addressIntentStart : String :=
  "\x7b\"type\":\"address\",\"address\":"

/-- Simple escape characters of a JSON string literal. -/
def jsonUnescapeChar (c : Char) : Option Char :=
  if c = '"' then some '"'
  else if c = '\\' then some '\\'
  else if c = '/' then some '/'
  else if c = 'n' then some '\n'
  else if c = 'r' then some '\r'
  else if c = 't' then some '\t'
  else if c = 'b' then some '\x08'
  else if c = 'f' then some '\x0c'
  else none

/-- Parse the body of a JSON string literal (the characters after the opening
quote): succeeds only when the closing quote is the final character. -/
def jsonStringBody : List Char → Option (List Char)
  | [] => none
  | ['"'] => some []
  | '"' :: _ :: _ => none
  | '\\' :: 'u' :: h1 :: h2 :: h3 :: h4 :: rest =>
    (match hexDigitVal h1, hexDigitVal h2, hexDigitVal h3, hexDigitVal h4 with
     | some a, some b, some c, some d =>
       let n := ((a * 16 + b) * 16 + c) * 16 + d
       if n.isValidChar then (jsonStringBody rest).map (Char.ofNat n :: ·) else none
     | _, _, _, _ => none)
  | '\\' :: e :: rest =>
    (match jsonUnescapeChar e with
     | some u => (jsonStringBody rest).map (u :: ·)
     | none => none)
  | c :: rest =>
    if c.toNat < 32 then none else (jsonStringBody rest).map (c :: ·)

/-- Parse of the stored `concessionIntent` value into a valid `LocateIntent`:
succeeds exactly on the serialized shapes of `stringifyIntent` (the shapes the
CTA module writes); every other string models a value on which `JSON.parse`
throws or which fails the intent shape checks of map.ts lines 1331-1356. -/
def parseConcessionIntent (raw : String) : Option LocateIntent :=
  if raw = stringifyIntent .geolocate then some .geolocate
  else
    let pfx := addressIntentStart.data
    let cs := raw.data
    if pfx.isPrefixOf cs ∧ cs.getLast? = some '\x7d' then
      match (cs.drop pfx.length).dropLast with
      | '"' :: body =>
        (jsonStringBody body).map (fun l => LocateIntent.address (String.mk l))
      | _ => none
    else none

/-- Intent read performed by `initMap` (map.ts lines 1328-1368): read the stored
value; a parse failure is swallowed by the surrounding `try`/`catch`, which
does nothing — in particular it does not remove the stored value. A parsed
intent is handed to the `tryConsume` retry loop (the value is removed from
storage only later, upon a successful consumption attempt). The result pair is
(intent handed over, storage cell after the read). -/
def initMapConsumeIntent (stored : Option String) : Option LocateIntent × Option String :=
  match stored with
  | none => (none, none)
  | some raw =>
    match parseConcessionIntent raw with
    | none => (none, some raw)
    | some intent => (some intent, some raw)

-- ============================================================================
-- CTA INTENT WRITES (concessionCta.ts lines 166-171, 262-288)
-- ============================================================================

/-- Storage write of `performSearch` (concessionCta.ts lines 167-171): guarded
by `if (!address.trim()) return`, then writes the serialized address intent
(with the untrimmed address). `none` models "no write". -/
def performSearchWrite (address : String) : Option String :=
  if jsTrim address = "" then none
  else some (stringifyIntent (.address address))

/-- Storage write of the search-button click handler (concessionCta.ts lines
263-270): trims the input value, returns without writing when empty, else
writes the serialized address intent with the trimmed address. -/
def searchButtonClickWrite (inputValue : String) : Option String :=
  let address := jsTrim inputValue
  if address = "" then none
  else some (stringifyIntent (.address address))

/-- Storage write of the geolocate-button click handler (concessionCta.ts lines
283-287). -/
def geolocateButtonClickWrite : String :=
  stringifyIntent .geolocate

/-- Well-formedness of a persisted intent value, as claimed: one of the two
JSON shapes, and in the address shape the address is neither empty nor
whitespace-only (`all isJsWhitespace` is true of the empty string, so a single
condition covers both). -/
def WellFormedIntentValue (w : String) : Prop :=
  w = stringifyIntent .geolocate ∨
  ∃ a, a.data.all isJsWhitespace = false ∧ w = stringifyIntent (.address a)

-- ============================================================================
-- INTENT CONSUMPTION RETRY LOOP (map.ts lines 1333-1364)
-- ============================================================================

/-- Embedding of `tryConsume` (map.ts lines 1333-1364). `present k` tells
whether the required DOM target (address input or geolocate control) has
mounted when attempt number `k` runs; attempt `k` runs 150ms after attempt
`k - 1`. Returns whether the intent was consumed. The source calls
`tryConsume()` with the default `retries = 20` and re-arms itself with
`retries - 1` while `retries > 0`. -/
def tryConsume (present : ℕ → Bool) : ℕ → ℕ → Bool
  | retries, k =>
    if present k then true
    else
      match retries with
      | 0 => false
      | r + 1 => tryConsume present r (k + 1)

/-- Number of attempts the `tryConsume` loop performs (same recursion
structure). -/
def tryConsumeAttemptCount (present : ℕ → Bool) : ℕ → ℕ → ℕ
  | retries, k =>
    if present k then 1
    else
      match retries with
      | 0 => 1
      | r + 1 => 1 + tryConsumeAttemptCount present r (k + 1)

-- ============================================================================
-- DEBOUNCED REORDER (map.ts lines 745-759, 835-888)
-- ============================================================================

/-- State of the sort debounce machinery: the pending `sortDebounceTimeout`
deadline (if any) and the number of reorder passes
(`sortConcessionsByDistanceImmediate` executions) that have run. -/
structure SortSched where
  timer : Option ℕ
  passes : ℕ
deriving DecidableEq

/-- Embedding of `sortConcessionsByDistance` (map.ts lines 745-759) at time
`now`: the non-immediate path clears any pending timer and schedules the
reorder 500ms ahead; the immediate path runs one reorder pass at once, leaving
any pending timer untouched. -/
def sortConcessionsByDistanceCall (now : ℕ) (immediate : Bool) (s : SortSched) :
    SortSched :=
  if immediate = false then { timer := some (now + 500), passes := s.passes }
  else { s with passes := s.passes + 1 }

/-- Firing of the scheduled debounce timer at its deadline. -/
def sortTimerFire (now : ℕ) (s : SortSched) : SortSched :=
  if s.timer = some now then { timer := none, passes := s.passes + 1 } else s

/-- Completion of one `updateAllDistances` batch recomputation at time `now`
(map.ts line 887): the source calls `sortConcessionsByDistance(true)`. -/
def updateAllDistancesCompletion (now : ℕ) (s : SortSched) : SortSched :=
  sortConcessionsByDistanceCall now true s

/-- Successive batch recomputation completions at the given times. -/
def runBatchCompletions : List ℕ → SortSched → SortSched
  | [], s => s
  | t :: ts, s => runBatchCompletions ts (updateAllDistancesCompletion t s)

/-- Concrete card with an unparseable distance text, used as a witness input. -/
def cardNA : Card := { tag := 0, distanceText := some "N/A" }

/-- Concrete card with a missing distance element, used as a witness input. -/
def cardMissing : Card := { tag := 1, distanceText := none }

-- ============================================================================
-- THEOREMS
-- ============================================================================

/-- Helper: a non-null score forces the criteria category to equal the
vehicle's category. -/
theorem calculateScore_type_eq (v : Vehicle) (c : SearchCriteria) (s : ℚ)
    (h : calculateScore v c = some s) : c.type = some v.type := by
  rcases hct : c.type with _ | t
  · simp [calculateScore, hct] at h
  · by_cases hvt : v.type = t
    · rw [hvt]
    · simp [calculateScore, hct, hvt] at h

/-- Helper: score of `deliver7` at the C1 criteria. -/
theorem score_deliver7_utilThermique :
    calculateScore vDeliver7 critUtilThermique = some (9.355 : ℚ) := by
  norm_num [calculateScore, chargeStep, volumeStep, longueurStep, vDeliver7,
    critUtilThermique, abs_of_nonneg, abs_of_nonpos]

/-- Helper: score of `deliver9` at the C1 criteria. -/
theorem score_deliver9_utilThermique :
    calculateScore vDeliver9 critUtilThermique = some (13.25 : ℚ) := by
  norm_num [calculateScore, chargeStep, volumeStep, longueurStep, vDeliver9,
    critUtilThermique, abs_of_nonneg, abs_of_nonpos]

/-- Helper: every non-`utilitaire thermique` catalog vehicle scores null at the
C1 criteria. -/
theorem score_others_utilThermique :
    calculateScore vT60max critUtilThermique = none ∧
    calculateScore vEdeliver3 critUtilThermique = none ∧
    calculateScore vEdeliver5 critUtilThermique = none ∧
    calculateScore vEdeliver7 critUtilThermique = none ∧
    calculateScore vEdeliver9 critUtilThermique = none ∧
    calculateScore vEterron9 critUtilThermique = none ∧
    calculateScore vT90ev critUtilThermique = none := by
  refine ⟨?_, ?_, ?_, ?_, ?_, ?_, ?_⟩ <;>
    simp [calculateScore, vT60max, vEdeliver3, vEdeliver5, vEdeliver7, vEdeliver9,
      vEterron9, vT90ev, critUtilThermique]

/-- C1 counterexample: at criteria (utilitaire thermique, 1300 kg, 9 m³, no
length) `findBestMatch` returns the vehicle with id `deliver7`, not
`deliver9`. -/
theorem findBestMatch_utilThermique_cex :
    (findBestMatch critUtilThermique).map Vehicle.id = some "deliver7" ∧
    "deliver7" ≠ "deliver9" := by
  obtain ⟨h3, h4, h5, h6, h7, h8, h9⟩ := score_others_utilThermique
  have hct : critUtilThermique.type = some VehicleType.utilitaireThermique := rfl
  have hlt : ¬((13.25 : ℚ) < (9.355 : ℚ)) := by norm_num
  constructor
  · simp only [findBestMatch, hct, VEHICLES, findBestLoop,
      score_deliver7_utilThermique, score_deliver9_utilThermique, h3, h4, h5, h6,
      h7, h8, h9, if_neg hlt, Option.map_some]
    rfl
  · decide

/-- C1 (amended): at criteria (utilitaire thermique, 1300 kg, 9 m³, no length)
`findBestMatch` returns `deliver7`, which attains the lowest non-null score
(9.355, against 13.25 for `deliver9`; every other catalog vehicle scores null)
among the catalog's nine vehicles. -/
theorem findBestMatch_utilThermique_deliver7 :
    findBestMatch critUtilThermique = some vDeliver7 ∧
    VEHICLES.map (fun v => calculateScore v critUtilThermique) =
      [some 9.355, some 13.25, none, none, none, none, none, none, none] ∧
    VEHICLES.length = 9 := by
  obtain ⟨h3, h4, h5, h6, h7, h8, h9⟩ := score_others_utilThermique
  have hct : critUtilThermique.type = some VehicleType.utilitaireThermique := rfl
  have hlt : ¬((13.25 : ℚ) < (9.355 : ℚ)) := by norm_num
  refine ⟨?_, ?_, by decide⟩
  · simp only [findBestMatch, hct, VEHICLES, findBestLoop,
      score_deliver7_utilThermique, score_deliver9_utilThermique, h3, h4, h5, h6,
      h7, h8, h9, if_neg hlt, Option.map_some]
    rfl
  · simp only [VEHICLES, List.map_cons, List.map_nil,
      score_deliver7_utilThermique, score_deliver9_utilThermique, h3, h4, h5, h6,
      h7, h8, h9]

/-- Helper: score of `eterron9` at the C6 criteria is exactly 0. -/
theorem score_eterron9_pickupElec :
    calculateScore vEterron9 critPickupElec = some (0 : ℚ) := by
  norm_num [calculateScore, chargeStep, volumeStep, longueurStep, vEterron9,
    critPickupElec, abs_of_nonneg, abs_of_nonpos]

/-- Helper: score of `t90ev` at the C6 criteria. -/
theorem score_t90ev_pickupElec :
    calculateScore vT90ev critPickupElec = some (3.5 : ℚ) := by
  norm_num [calculateScore, chargeStep, volumeStep, longueurStep, vT90ev,
    critPickupElec, abs_of_nonneg, abs_of_nonpos]

/-- Helper: every non-`pickup électrique` catalog vehicle scores null at the
C6 criteria. -/
theorem score_others_pickupElec :
    calculateScore vDeliver7 critPickupElec = none ∧
    calculateScore vDeliver9 critPickupElec = none ∧
    calculateScore vT60max critPickupElec = none ∧
    calculateScore vEdeliver3 critPickupElec = none ∧
    calculateScore vEdeliver5 critPickupElec = none ∧
    calculateScore vEdeliver7 critPickupElec = none ∧
    calculateScore vEdeliver9 critPickupElec = none := by
  refine ⟨?_, ?_, ?_, ?_, ?_, ?_, ?_⟩ <;>
    simp [calculateScore, vDeliver7, vDeliver9, vT60max, vEdeliver3, vEdeliver5,
      vEdeliver7, vEdeliver9, critPickupElec]

/-- C6: at criteria (pickup électrique, 650 kg, no volume, no length)
`findBestMatch` returns the vehicle with id `eterron9`, whose score for these
criteria is exactly 0. -/
theorem findBestMatch_pickupElec_eterron9 :
    findBestMatch critPickupElec = some vEterron9 ∧
    vEterron9.id = "eterron9" ∧
    calculateScore vEterron9 critPickupElec = some 0 := by
  obtain ⟨h1, h2, h3, h4, h5, h6, h7⟩ := score_others_pickupElec
  have hct : critPickupElec.type = some VehicleType.pickupElectrique := rfl
  have hlt : ¬((3.5 : ℚ) < (0 : ℚ)) := by norm_num
  refine ⟨?_, by decide, score_eterron9_pickupElec⟩
  simp only [findBestMatch, hct, VEHICLES, findBestLoop, h1, h2, h3, h4, h5, h6, h7,
    score_eterron9_pickupElec, score_t90ev_pickupElec, if_neg hlt, Option.map_some]
  rfl

/-- Helper: the result score of the accumulator loop never exceeds the score in
the starting accumulator. -/
theorem findBestLoop_acc_le (c : SearchCriteria) :
    ∀ (l : List Vehicle) (bv : Vehicle) (bs : ℚ) (v : Vehicle) (s : ℚ),
      findBestLoop c l (some (bv, bs)) = some (v, s) → s ≤ bs := by
  intro l
  induction l with
  | nil =>
    intro bv bs v s h
    simp only [findBestLoop, Option.some.injEq, Prod.mk.injEq] at h
    exact h.2 ▸ le_refl _
  | cons u rest ih =>
    intro bv bs v s h
    rcases hu : calculateScore u c with _ | t
    · simp only [findBestLoop, hu] at h
      exact ih bv bs v s h
    · simp only [findBestLoop, hu] at h
      by_cases hlt : t < bs
      · rw [if_pos hlt] at h
        exact le_trans (ih u t v s h) (le_of_lt hlt)
      · rw [if_neg hlt] at h
        exact ih bv bs v s h

/-- Helper: the result score of the accumulator loop is a lower bound of every
non-null score in the traversed list. -/
theorem findBestLoop_min (c : SearchCriteria) :
    ∀ (l : List Vehicle) (acc : Option (Vehicle × ℚ)) (v : Vehicle) (s : ℚ),
      findBestLoop c l acc = some (v, s) →
      ∀ u ∈ l, ∀ t, calculateScore u c = some t → s ≤ t := by
  intro l
  induction l with
  | nil =>
    intro acc v s _ u hu
    exact absurd hu (List.not_mem_nil u)
  | cons u0 rest ih =>
    intro acc v s h u hu t ht
    rcases hu0 : calculateScore u0 c with _ | t0
    · simp only [findBestLoop, hu0] at h
      rcases List.mem_cons.mp hu with rfl | hu'
      · rw [hu0] at ht
        cases ht
      · exact ih acc v s h u hu' t ht
    · rcases List.mem_cons.mp hu with rfl | hu'
      · rw [hu0] at ht
        injection ht with ht'
        subst ht'
        cases acc with
        | none =>
          simp only [findBestLoop, hu0] at h
          exact findBestLoop_acc_le c rest _ _ v s h
        | some p =>
          rcases p with ⟨bv, bs⟩
          simp only [findBestLoop, hu0] at h
          by_cases hlt : t0 < bs
          · rw [if_pos hlt] at h
            exact findBestLoop_acc_le c rest _ _ v s h
          · rw [if_neg hlt] at h
            exact le_trans (findBestLoop_acc_le c rest bv bs v s h) (not_lt.mp hlt)
      · cases acc with
        | none =>
          simp only [findBestLoop, hu0] at h
          exact ih (some (u0, t0)) v s h u hu' t ht
        | some p =>
          rcases p with ⟨bv, bs⟩
          simp only [findBestLoop, hu0] at h
          by_cases hlt : t0 < bs
          · rw [if_pos hlt] at h
            exact ih (some (u0, t0)) v s h u hu' t ht
          · rw [if_neg hlt] at h
            exact ih (some (bv, bs)) v s h u hu' t ht

/-- Helper: the result of the accumulator loop is the starting accumulator, or
an element of the list whose score strictly beats the starting accumulator and
every element placed before it in the list. -/
theorem findBestLoop_first (c : SearchCriteria) :
    ∀ (l : List Vehicle) (acc : Option (Vehicle × ℚ)) (v : Vehicle) (s : ℚ),
      findBestLoop c l acc = some (v, s) →
      acc = some (v, s) ∨
      ∃ l1 l2, l = l1 ++ v :: l2 ∧ calculateScore v c = some s ∧
        (∀ bv bs, acc = some (bv, bs) → s < bs) ∧
        (∀ u ∈ l1, ∀ t, calculateScore u c = some t → s < t) := by
  intro l
  induction l with
  | nil =>
    intro acc v s h
    exact Or.inl h
  | cons u0 rest ih =>
    intro acc v s h
    rcases hu0 : calculateScore u0 c with _ | t0
    · simp only [findBestLoop, hu0] at h
      rcases ih acc v s h with hacc | ⟨l1, l2, heq, hs, haccs, hl1⟩
      · exact Or.inl hacc
      · refine Or.inr ⟨u0 :: l1, l2, by rw [heq, List.cons_append], hs, haccs, ?_⟩
        intro u hu t ht
        rcases List.mem_cons.mp hu with rfl | hu'
        · rw [hu0] at ht
          cases ht
        · exact hl1 u hu' t ht
    · cases acc with
      | none =>
        simp only [findBestLoop, hu0] at h
        rcases ih (some (u0, t0)) v s h with hacc | ⟨l1, l2, heq, hs, haccs, hl1⟩
        · injection hacc with hacc'
          injection hacc' with hv hsc
          subst hv
          subst hsc
          refine Or.inr ⟨[], rest, rfl, hu0, ?_, ?_⟩
          · intro bv bs hbs
            cases hbs
          · intro u hu
            exact absurd hu (List.not_mem_nil u)
        · refine Or.inr ⟨u0 :: l1, l2, by rw [heq, List.cons_append], hs, ?_, ?_⟩
          · intro bv bs hbs
            cases hbs
          · intro u hu t ht
            rcases List.mem_cons.mp hu with rfl | hu'
            · rw [hu0] at ht
              injection ht with ht'
              subst ht'
              exact haccs _ _ rfl
            · exact hl1 u hu' t ht
      | some p =>
        rcases p with ⟨bv0, bs0⟩
        simp only [findBestLoop, hu0] at h
        by_cases hlt : t0 < bs0
        · rw [if_pos hlt] at h
          rcases ih (some (u0, t0)) v s h with hacc | ⟨l1, l2, heq, hs, haccs, hl1⟩
          · injection hacc with hacc'
            injection hacc' with hv hsc
            subst hv
            subst hsc
            refine Or.inr ⟨[], rest, rfl, hu0, ?_, ?_⟩
            · intro bv bs hbs
              injection hbs with hbs'
              injection hbs' with hv2 hs2
              subst hv2
              subst hs2
              exact hlt
            · intro u hu
              exact absurd hu (List.not_mem_nil u)
          · refine Or.inr ⟨u0 :: l1, l2, by rw [heq, List.cons_append], hs, ?_, ?_⟩
            · intro bv bs hbs
              injection hbs with hbs'
              injection hbs' with hv2 hs2
              subst hv2
              subst hs2
              exact lt_trans (haccs u0 t0 rfl) hlt
            · intro u hu t ht
              rcases List.mem_cons.mp hu with rfl | hu'
              · rw [hu0] at ht
                injection ht with ht'
                subst ht'
                exact haccs _ _ rfl
              · exact hl1 u hu' t ht
        · rw [if_neg hlt] at h
          rcases ih (some (bv0, bs0)) v s h with hacc | ⟨l1, l2, heq, hs, haccs, hl1⟩
          · exact Or.inl hacc
          · refine Or.inr ⟨u0 :: l1, l2, by rw [heq, List.cons_append], hs, haccs, ?_⟩
            intro u hu t ht
            rcases List.mem_cons.mp hu with rfl | hu'
            · rw [hu0] at ht
              injection ht with ht'
              subst ht'
              exact lt_of_lt_of_le (haccs bv0 bs0 rfl) (not_lt.mp hlt)
            · exact hl1 u hu' t ht

/-- C9: whenever `findBestMatch` returns a vehicle, that vehicle's category
equals the criteria's category, its score is non-null and is a lower bound of
every catalog vehicle's non-null score, and every catalog vehicle placed before
it has a null or strictly greater score (so among minimal-score vehicles the
earliest in catalog order is returned). -/
theorem findBestMatch_sound (c : SearchCriteria) (v : Vehicle)
    (h : findBestMatch c = some v) :
    c.type = some v.type ∧
    ∃ s, calculateScore v c = some s ∧
      (∀ u ∈ VEHICLES, ∀ t, calculateScore u c = some t → s ≤ t) ∧
      ∃ l1 l2, VEHICLES = l1 ++ v :: l2 ∧
        ∀ u ∈ l1, ∀ t, calculateScore u c = some t → s < t := by
  have hmap : (findBestLoop c VEHICLES none).map Prod.fst = some v := by
    rcases hct : c.type with _ | t0
    · rw [findBestMatch, hct] at h
      cases h
    · rw [findBestMatch, hct] at h
      exact h
  rcases hlp : findBestLoop c VEHICLES none with _ | p
  · rw [hlp] at hmap
    cases hmap
  · rcases p with ⟨bv, bs⟩
    rw [hlp] at hmap
    have hv : bv = v := by simpa using hmap
    subst hv
    rcases findBestLoop_first c VEHICLES none bv bs hlp with hacc | ⟨l1, l2, heq, hs, _, hl1⟩
    · cases hacc
    · exact ⟨calculateScore_type_eq bv c bs hs, bs, hs,
        findBestLoop_min c VEHICLES none bv bs hlp, l1, l2, heq, hl1⟩

/-- C9 witness: instantiation at the C6 criteria, where `findBestMatch`
returns `eterron9`. -/
theorem findBestMatch_sound_witness :
    critPickupElec.type = some vEterron9.type ∧
    ∃ s, calculateScore vEterron9 critPickupElec = some s ∧
      (∀ u ∈ VEHICLES, ∀ t, calculateScore u critPickupElec = some t → s ≤ t) ∧
      ∃ l1 l2, VEHICLES = l1 ++ vEterron9 :: l2 ∧
        ∀ u ∈ l1, ∀ t, calculateScore u critPickupElec = some t → s < t := by
  apply findBestMatch_sound critPickupElec vEterron9
  obtain ⟨h1, h2, h3, h4, h5, h6, h7⟩ := score_others_pickupElec
  have hct : critPickupElec.type = some VehicleType.pickupElectrique := rfl
  have hlt : ¬((3.5 : ℚ) < (0 : ℚ)) := by norm_num
  simp only [findBestMatch, hct, VEHICLES, findBestLoop, h1, h2, h3, h4, h5, h6, h7,
    score_eterron9_pickupElec, score_t90ev_pickupElec, if_neg hlt, Option.map_some]
  rfl

/-- Helper: the charge accumulation step agrees with the spec-side charge
contribution. -/
theorem chargeStep_rel (v : Vehicle) (c : SearchCriteria) :
    (∃ a, chargeContribution v c = some a ∧ chargeStep v c = (a, 1)) ∨
    (chargeContribution v c = none ∧ chargeStep v c = (0, 0)) := by
  unfold chargeContribution chargeStep
  rcases c.charge with _ | q
  · exact Or.inr ⟨rfl, rfl⟩
  · by_cases hp : 0 < v.charge
    · refine Or.inl ⟨|v.charge - q| / 100, ?_, ?_⟩
      · show (if 0 < v.charge then some (|v.charge - q| / 100) else none) = _
        rw [if_pos hp]
      · show (if 0 < v.charge then ((|v.charge - q| / 100 : ℚ), (1 : ℕ)) else (0, 0)) = _
        rw [if_pos hp]
    · refine Or.inr ⟨?_, ?_⟩
      · show (if 0 < v.charge then some (|v.charge - q| / 100) else none) = _
        rw [if_neg hp]
      · show (if 0 < v.charge then ((|v.charge - q| / 100 : ℚ), (1 : ℕ)) else (0, 0)) = _
        rw [if_neg hp]

/-- Helper: the volume accumulation step agrees with the spec-side volume
contribution. -/
theorem volumeStep_rel (v : Vehicle) (c : SearchCriteria) :
    (∃ a, volumeContribution v c = some a ∧ volumeStep v c = (a, 1)) ∨
    (volumeContribution v c = none ∧ volumeStep v c = (0, 0)) := by
  unfold volumeContribution volumeStep
  rcases c.volume with _ | q
  · exact Or.inr ⟨rfl, rfl⟩
  · rcases v.volume with _ | w
    · exact Or.inr ⟨rfl, rfl⟩
    · by_cases hp : 0 < w
      · refine Or.inl ⟨|w - q| * 10, ?_, ?_⟩
        · show (if 0 < w then some (|w - q| * 10) else none) = _
          rw [if_pos hp]
        · show (if 0 < w then ((|w - q| * 10 : ℚ), (1 : ℕ)) else (0, 0)) = _
          rw [if_pos hp]
      · refine Or.inr ⟨?_, ?_⟩
        · show (if 0 < w then some (|w - q| * 10) else none) = _
          rw [if_neg hp]
        · show (if 0 < w then ((|w - q| * 10 : ℚ), (1 : ℕ)) else (0, 0)) = _
          rw [if_neg hp]

/-- Helper: the length accumulation step agrees with the spec-side length
contribution. -/
theorem longueurStep_rel (v : Vehicle) (c : SearchCriteria) :
    (∃ a, longueurContribution v c = some a ∧ longueurStep v c = (a, 1)) ∨
    (longueurContribution v c = none ∧ longueurStep v c = (0, 0)) := by
  unfold longueurContribution longueurStep
  rcases c.longueur with _ | q
  · exact Or.inr ⟨rfl, rfl⟩
  · rcases v.longueur with _ | w
    · exact Or.inr ⟨rfl, rfl⟩
    · by_cases hp : 0 < w
      · refine Or.inl ⟨|w - q| * 100, ?_, ?_⟩
        · show (if 0 < w then some (|w - q| * 100) else none) = _
          rw [if_pos hp]
        · show (if 0 < w then ((|w - q| * 100 : ℚ), (1 : ℕ)) else (0, 0)) = _
          rw [if_pos hp]
      · refine Or.inr ⟨?_, ?_⟩
        · show (if 0 < w then some (|w - q| * 100) else none) = _
          rw [if_neg hp]
        · show (if 0 < w then ((|w - q| * 100 : ℚ), (1 : ℕ)) else (0, 0)) = _
          rw [if_neg hp]

/-- C4: `calculateScore` coincides with the spec-worded score on every vehicle
and criteria: none exactly when the category is unset or mismatched or zero
numeric criteria were evaluated, otherwise the mean of the weighted
contributions of the criteria present in the criteria and positive in the
vehicle. -/
theorem calculateScore_eq_specScore (v : Vehicle) (c : SearchCriteria) :
    calculateScore v c = specScore v c := by
  rcases hct : c.type with _ | t
  · simp [calculateScore, specScore, hct]
  · by_cases hvt : v.type = t
    · subst hvt
      have hts : c.type = some v.type := hct
      simp only [calculateScore, hct]
      rw [if_neg (fun hh => hh rfl), specScore, if_pos hts]
      unfold specContributions
      have h1 := chargeStep_rel v c
      have h2 := volumeStep_rel v c
      have h3 := longueurStep_rel v c
      rcases h1 with ⟨a1, ho1, hp1⟩ | ⟨ho1, hp1⟩ <;>
        rcases h2 with ⟨a2, ho2, hp2⟩ | ⟨ho2, hp2⟩ <;>
        rcases h3 with ⟨a3, ho3, hp3⟩ | ⟨ho3, hp3⟩ <;>
        rw [ho1, ho2, ho3, hp1, hp2, hp3] <;>
        norm_num [List.filterMap_cons, List.filterMap_nil] <;>
        (first
          | rfl
          | (exact ⟨by simp, by ring⟩)
          | simp)
    · have hne : ¬(c.type = some v.type) := by
        rw [hct]
        intro hcon
        injection hcon with hcon2
        exact hvt hcon2.symm
      simp only [calculateScore, hct]
      rw [if_pos (fun hc => hvt hc), specScore, if_neg hne]

/-- Helper: the comparator-induced relation is transitive. -/
theorem cardLe_trans : ∀ a b c : Card, cardLe a b = true → cardLe b c = true →
    cardLe a c = true := by
  intro a b c
  unfold cardLe distanceLe
  rcases cardDistance a with _ | x <;> rcases cardDistance b with _ | y <;>
    rcases cardDistance c with _ | z <;> simp
  exact fun h1 h2 => le_trans h1 h2

/-- Helper: the comparator-induced relation is total. -/
theorem cardLe_total : ∀ a b : Card, (cardLe a b || cardLe b a) = true := by
  intro a b
  unfold cardLe distanceLe
  rcases cardDistance a with _ | x <;> rcases cardDistance b with _ | y <;> simp
  exact le_total x y

/-- C5: the distance sort returns a permutation of the input in which cards
with known numeric distances appear in ascending distance order, no
unknown-distance card ever precedes a known-distance card, and any two
unknown-distance cards keep their original relative order. -/
theorem sortConcessions_spec (l : List Card) :
    (sortConcessionsByDistanceImmediate l).Perm l ∧
    (sortConcessionsByDistanceImmediate l).Pairwise (fun a b => ∀ x y,
      cardDistance a = some x → cardDistance b = some y → x ≤ y) ∧
    (sortConcessionsByDistanceImmediate l).Pairwise (fun a b =>
      cardDistance a = none → cardDistance b = none) ∧
    ∀ a b, cardDistance a = none → cardDistance b = none →
      [a, b].Sublist l → [a, b].Sublist (sortConcessionsByDistanceImmediate l) := by
  have hpw : List.Pairwise (fun a b => cardLe a b = true) (l.mergeSort cardLe) :=
    List.sorted_mergeSort cardLe_trans cardLe_total l
  refine ⟨List.mergeSort_perm l cardLe, ?_, ?_, ?_⟩
  · refine hpw.imp ?_
    intro a b hab x y hx hy
    rw [cardLe, hx, hy] at hab
    simp only [distanceLe, decide_eq_true_eq] at hab
    exact hab
  · refine hpw.imp ?_
    intro a b hab ha
    rw [cardLe, ha] at hab
    rcases hb : cardDistance b with _ | y
    · rfl
    · rw [hb] at hab
      simp [distanceLe] at hab
  · intro a b ha hb hsub
    refine List.sublist_mergeSort cardLe_trans cardLe_total ?_ hsub
    refine List.pairwise_cons.mpr ⟨?_, List.pairwise_singleton _ _⟩
    intro b' hb'
    rcases List.mem_singleton.mp hb' with rfl
    rw [cardLe, ha, hb]
    rfl

/-- C5 witness: instantiation of the stability conjunct at a concrete
two-card list whose distances are both unknown. -/
theorem sortConcessions_spec_witness :
    [cardNA, cardMissing].Sublist (sortConcessionsByDistanceImmediate [cardNA, cardMissing]) :=
  (sortConcessions_spec [cardNA, cardMissing]).2.2.2 cardNA cardMissing
    (by decide) (by decide) (List.Sublist.refl _)

/-- C7: the suggestion request classification — a trimmed query shorter than 2
returns the empty list without a request; a trimmed query of 2 to 5 ASCII
digits requests the postal-code-biased category set; any other trimmed query of
length at least 2 requests the general category set; and the concessionCta.ts
copy decides identically. -/
theorem suggest_classification (q : String) :
    ((jsTrim q).length < 2 → getAddressSuggestionsTypes q = none) ∧
    (isPostalCodeQuery (jsTrim q) = true →
      getAddressSuggestionsTypes q = some postalCodeTypes) ∧
    (2 ≤ (jsTrim q).length → isPostalCodeQuery (jsTrim q) = false →
      getAddressSuggestionsTypes q = some generalSearchTypes) ∧
    ctaGetAddressSuggestionsTypes q = getAddressSuggestionsTypes q := by
  refine ⟨?_, ?_, ?_, rfl⟩
  · intro h
    simp only [getAddressSuggestionsTypes]
    rw [if_pos (Or.inr h)]
  · intro h
    have hconj : 2 ≤ (jsTrim q).length ∧ (jsTrim q).length ≤ 5 ∧
        (jsTrim q).data.all (·.isDigit) := by
      simpa [isPostalCodeQuery] using h
    simp only [getAddressSuggestionsTypes]
    rw [if_neg ?_, if_pos h]
    rintro (he | hlt)
    · rw [he] at hconj
      simp at hconj
    · omega
  · intro hlen hpostal
    simp only [getAddressSuggestionsTypes]
    rw [if_neg ?_, if_neg ?_]
    · rw [hpostal]
      simp
    · rintro (he | hlt)
      · rw [he] at hlen
        simp at hlen
      · omega

/-- C7 witness: a 5-digit query selects the postal set, a city name selects the
general set, and a one-letter query issues no request. -/
theorem suggest_classification_witness :
    getAddressSuggestionsTypes "75001" = some postalCodeTypes ∧
    getAddressSuggestionsTypes "Paris" = some generalSearchTypes ∧
    getAddressSuggestionsTypes "x" = none :=
  ⟨(suggest_classification "75001").2.1 (by decide),
   (suggest_classification "Paris").2.2.1 (by decide) (by decide),
   (suggest_classification "x").1 (by decide)⟩

/-- Helper: with no retries left, the loop consumes exactly when the target is
present at the current attempt. -/
theorem tryConsume_zero (present : ℕ → Bool) (k : ℕ) :
    tryConsume present 0 k = present k := by
  cases hp : present k <;> simp [tryConsume, hp]

/-- Helper: unfolding of one retry step. -/
theorem tryConsume_succ (present : ℕ → Bool) (r k : ℕ) :
    tryConsume present (r + 1) k =
      if present k then true else tryConsume present r (k + 1) := rfl

/-- Helper: the loop gives up exactly when the target is absent at every
attempt within the retry budget. -/
theorem tryConsume_false_iff (present : ℕ → Bool) :
    ∀ r k, tryConsume present r k = false ↔ ∀ i, i ≤ r → present (k + i) = false := by
  intro r
  induction r with
  | zero =>
    intro k
    rw [tryConsume_zero]
    constructor
    · intro h i hi
      have : i = 0 := Nat.le_zero.mp hi
      subst this
      simpa using h
    · intro h
      simpa using h 0 (le_refl 0)
  | succ r ih =>
    intro k
    rw [tryConsume_succ]
    cases hp : present k with
    | true =>
      simp only [if_pos rfl]
      constructor
      · intro h
        cases h
      · intro h
        have := h 0 (by omega)
        simp [hp] at this
    | false =>
      simp only [Bool.false_eq_true, if_false]
      rw [ih (k + 1)]
      constructor
      · intro h i hi
        match i with
        | 0 => simpa using hp
        | j + 1 =>
          rw [show k + (j + 1) = k + 1 + j by omega]
          exact h j (by omega)
      · intro h i hi
        rw [show k + 1 + i = k + (i + 1) by omega]
        exact h (i + 1) (by omega)

/-- Helper: the attempt count never exceeds the retry budget plus one. -/
theorem tryConsumeAttemptCount_le (present : ℕ → Bool) :
    ∀ r k, tryConsumeAttemptCount present r k ≤ r + 1 := by
  intro r
  induction r with
  | zero =>
    intro k
    cases hp : present k <;> simp [tryConsumeAttemptCount, hp]
  | succ r ih =>
    intro k
    cases hp : present k with
    | true => simp [tryConsumeAttemptCount, hp]
    | false =>
      have : tryConsumeAttemptCount present (r + 1) k =
          1 + tryConsumeAttemptCount present r (k + 1) := by
        simp [tryConsumeAttemptCount, hp]
      rw [this]
      have := ih (k + 1)
      omega

/-- Helper: an abandoned run performs exactly the full budget of attempts. -/
theorem tryConsumeAttemptCount_of_false (present : ℕ → Bool) :
    ∀ r k, tryConsume present r k = false →
      tryConsumeAttemptCount present r k = r + 1 := by
  intro r
  induction r with
  | zero =>
    intro k h
    rw [tryConsume_zero] at h
    simp [tryConsumeAttemptCount, h]
  | succ r ih =>
    intro k h
    rw [tryConsume_succ] at h
    cases hp : present k with
    | true => rw [if_pos (by rw [hp])] at h; cases h
    | false =>
      rw [if_neg (by rw [hp]; exact Bool.false_ne_true)] at h
      have hrec := ih (k + 1) h
      simp [tryConsumeAttemptCount, hp, hrec]
      omega

/-- Helper: a successful run consumes at the first attempt where the target is
present, within the retry budget. -/
theorem tryConsume_true_first (present : ℕ → Bool) :
    ∀ r k, tryConsume present r k = true →
      ∃ j, j ≤ r ∧ present (k + j) = true ∧ ∀ i, i < j → present (k + i) = false := by
  intro r
  induction r with
  | zero =>
    intro k h
    rw [tryConsume_zero] at h
    exact ⟨0, le_refl 0, by simpa using h, fun i hi => absurd hi (by omega)⟩
  | succ r ih =>
    intro k h
    rw [tryConsume_succ] at h
    cases hp : present k with
    | true =>
      exact ⟨0, by omega, by simpa using hp, fun i hi => absurd hi (by omega)⟩
    | false =>
      rw [if_neg (by rw [hp]; exact Bool.false_ne_true)] at h
      obtain ⟨j, hj, hpj, hbefore⟩ := ih (k + 1) h
      refine ⟨j + 1, by omega, ?_, ?_⟩
      · rw [show k + (j + 1) = k + 1 + j by omega]
        exact hpj
      · intro i hi
        match i with
        | 0 => simpa using hp
        | i' + 1 =>
          rw [show k + (i' + 1) = k + 1 + i' by omega]
          exact hbefore i' (by omega)

/-- C8: the intent-consumption loop started with the default budget performs at
most 21 attempts (the initial one plus at most 20 retries); it abandons the
intent exactly when the DOM target is absent at every one of those attempts, in
which case it performs exactly 21 attempts and stops; and when it consumes, it
does so at the first attempt (of index at most 20) where the target is
present. -/
theorem tryConsume_bounded (present : ℕ → Bool) :
    tryConsumeAttemptCount present 20 0 ≤ 21 ∧
    (tryConsume present 20 0 = false ↔ ∀ i, i ≤ 20 → present i = false) ∧
    (tryConsume present 20 0 = false → tryConsumeAttemptCount present 20 0 = 21) ∧
    (tryConsume present 20 0 = true →
      ∃ j, j ≤ 20 ∧ present j = true ∧ ∀ i, i < j → present i = false) := by
  refine ⟨tryConsumeAttemptCount_le present 20 0, ?_, ?_, ?_⟩
  · rw [tryConsume_false_iff present 20 0]
    constructor
    · intro h i hi
      simpa using h i hi
    · intro h i hi
      simpa using h i hi
  · exact tryConsumeAttemptCount_of_false present 20 0
  · intro h
    obtain ⟨j, hj, hpj, hbefore⟩ := tryConsume_true_first present 20 0 h
    exact ⟨j, hj, by simpa using hpj, fun i hi => by simpa using hbefore i hi⟩

/-- C8 witness: with the DOM target never present, the loop performs exactly 21
attempts and gives up. -/
theorem tryConsume_bounded_witness :
    tryConsumeAttemptCount (fun _ => false) 20 0 = 21 :=
  (tryConsume_bounded (fun _ => false)).2.2.1 (by decide)

/-- C2 counterexample: the stored value consisting of a lone opening brace is
malformed; the map-page read returns none and does not throw, but the corrupt
value is left in storage — the key is still present afterwards, where the claim
says it is cleared. -/
theorem intentRead_malformed_cex :
    parseConcessionIntent "\x7b" = none ∧
    initMapConsumeIntent (some "\x7b") = (none, some "\x7b") ∧
    (initMapConsumeIntent (some "\x7b")).2 ≠ none := by
  refine ⟨by decide, by decide, by decide⟩

/-- C2 (amended): for every stored value that fails to parse as a valid
LocateIntent, the map-page read returns none and does not throw, but it leaves
the corrupt value in place: the storage key still holds the same value
afterwards (nothing clears it). -/
theorem intentRead_malformed_keeps_value (raw : String)
    (h : parseConcessionIntent raw = none) :
    initMapConsumeIntent (some raw) = (none, some raw) := by
  simp only [initMapConsumeIntent, h]

/-- C2 witness: instantiation at the lone-brace malformed value. -/
theorem intentRead_malformed_keeps_value_witness :
    initMapConsumeIntent (some "\x7b") = (none, some "\x7b") :=
  intentRead_malformed_keeps_value "\x7b" (by decide)

/-- C3 counterexample: two batch recomputations completing 100ms apart (well
within 500ms) trigger two reorder passes, not the single debounced pass the
claim describes. -/
theorem batchReorder_not_debounced_cex :
    (100 : ℕ) - 0 < 500 ∧
    (runBatchCompletions [0, 100] { timer := none, passes := 0 }).passes = 2 ∧
    (runBatchCompletions [0, 100] { timer := none, passes := 0 }).passes ≠ 1 := by
  refine ⟨by norm_num, by decide, by decide⟩

/-- C3 (amended): a completed batch recomputation bypasses the 500ms debounce:
the source calls the sort with `immediate = true`, so every completion runs its
own reorder pass at once (n completions yield n passes) and leaves any pending
debounce timer untouched; only the non-immediate path debounces, clearing the
pending timer and scheduling the reorder 500ms ahead. -/
theorem batchReorder_immediate (ts : List ℕ) (s : SortSched) :
    (runBatchCompletions ts s).passes = s.passes + ts.length ∧
    (runBatchCompletions ts s).timer = s.timer ∧
    (∀ now, sortConcessionsByDistanceCall now false s =
      { timer := some (now + 500), passes := s.passes }) := by
  refine ⟨?_, ?_, fun now => rfl⟩
  · induction ts generalizing s with
    | nil => simp [runBatchCompletions]
    | cons t rest ih =>
      have hstep : updateAllDistancesCompletion t s = { s with passes := s.passes + 1 } := rfl
      simp only [runBatchCompletions, hstep, List.length_cons]
      rw [ih]
      simp
      omega
  · induction ts generalizing s with
    | nil => rfl
    | cons t rest ih =>
      have hstep : updateAllDistancesCompletion t s = { s with passes := s.passes + 1 } := rfl
      simp only [runBatchCompletions, hstep]
      exact ih { s with passes := s.passes + 1 }

/-- Helper: the head surviving a `dropWhile` fails the predicate. -/
theorem dropWhile_head_false (p : Char → Bool) :
    ∀ (l : List Char) c rest, l.dropWhile p = c :: rest → p c = false := by
  intro l
  induction l with
  | nil =>
    intro c rest h
    cases h
  | cons a t ih =>
    intro c rest h
    rw [List.dropWhile_cons] at h
    by_cases hp : p a = true
    · rw [if_pos hp] at h
      exact ih c rest h
    · rw [if_neg hp] at h
      injection h with h1 _
      subst h1
      exact Bool.not_eq_true _ ▸ (by simpa using hp)

/-- Helper: trimming a whitespace-only character list yields the empty list. -/
theorem jsTrimList_of_all_ws (cs : List Char)
    (h : cs.all isJsWhitespace = true) : jsTrimList cs = [] := by
  unfold jsTrimList
  have h1 : cs.reverse.dropWhile isJsWhitespace = [] := by
    rw [List.dropWhile_eq_nil_iff]
    intro x hx
    exact List.all_eq_true.mp h x (List.mem_reverse.mp hx)
  rw [h1]
  rfl

/-- Helper: a nonempty trimmed character list is not whitespace-only (its head
survived the final `dropWhile`). -/
theorem jsTrimList_not_all_ws (cs : List Char) (h : jsTrimList cs ≠ []) :
    (jsTrimList cs).all isJsWhitespace = false := by
  rcases hd : jsTrimList cs with _ | ⟨c, rest⟩
  · exact absurd hd h
  · have hc : isJsWhitespace c = false := by
      apply dropWhile_head_false isJsWhitespace ((cs.reverse.dropWhile isJsWhitespace).reverse) c rest
      exact hd
    cases hall : ((c :: rest).all isJsWhitespace) with
    | false => rfl
    | true =>
      have := List.all_eq_true.mp hall c (List.mem_cons_self c rest)
      rw [hc] at this
      cases this

/-- C10: every value the call-to-action module writes to the persisted intent
key is one of the two JSON shapes — the geolocate object, or the address
object whose address string is neither empty nor whitespace-only (all three
write sites are covered: `performSearch`, the search-button handler, and the
geolocate-button handler). -/
theorem ctaIntentWrites_wellformed (s w : String) :
    (performSearchWrite s = some w → WellFormedIntentValue w) ∧
    (searchButtonClickWrite s = some w → WellFormedIntentValue w) ∧
    (w = geolocateButtonClickWrite → WellFormedIntentValue w) := by
  refine ⟨?_, ?_, ?_⟩
  · intro h
    unfold performSearchWrite at h
    by_cases hg : jsTrim s = ""
    · rw [if_pos hg] at h
      cases h
    · rw [if_neg hg] at h
      injection h with h1
      subst h1
      refine Or.inr ⟨s, ?_, rfl⟩
      cases hall : s.data.all isJsWhitespace with
      | false => rfl
      | true =>
        exact absurd (congrArg String.mk (jsTrimList_of_all_ws s.data hall)) hg
  · intro h
    unfold searchButtonClickWrite at h
    by_cases hg : jsTrim s = ""
    · rw [if_pos hg] at h
      cases h
    · rw [if_neg hg] at h
      injection h with h1
      subst h1
      refine Or.inr ⟨jsTrim s, ?_, rfl⟩
      apply jsTrimList_not_all_ws
      intro hnil
      exact hg (congrArg String.mk hnil)
  · intro h
    exact Or.inl h

/-- C10 witness: the three write sites at the concrete input "Paris" produce
well-formed values. -/
theorem ctaIntentWrites_wellformed_witness :
    WellFormedIntentValue (stringifyIntent (.address "Paris")) ∧
    WellFormedIntentValue geolocateButtonClickWrite :=
  ⟨(ctaIntentWrites_wellformed "Paris" (stringifyIntent (.address "Paris"))).1 (by decide),
   (ctaIntentWrites_wellformed "Paris" geolocateButtonClickWrite).2.2 rfl⟩
